import Mathlib

/-!
# Verification of the AI batch processing orchestrator

Shallow embedding of the core of the `Deploy-backend` repository
(`products/ai_runner.py`, `products/ai_service.py`, and the batch control
endpoints of `products/views.py`), with theorems checking the documented
behaviour of the item-processor retry state machine, the response
normalizer, the finalization aggregator, the cancel/resume/selective-retry
endpoints, the service construction guard, and the sequential batch queue.
-/

namespace DeployBackend

/-! ## String helpers

Python's `in` operator on strings (substring containment) and `str.lower`,
modelled over character lists. -/

/-- `startsWithChars needle hay` is true when `needle` is an initial
segment of `hay` (character-wise). -/
def startsWithChars : List Char → List Char → Bool
  | [], _ => true
  | _ :: _, [] => false
  | n :: ns, h :: hs => n == h && startsWithChars ns hs

/-- `containsChars hay needle` models Python's `needle in hay`
substring test. -/
def containsChars : List Char → List Char → Bool
  | [], needle => startsWithChars needle []
  | h :: hs, needle => startsWithChars needle (h :: hs) || containsChars hs needle

/-- Python `str.lower()` on the underlying characters. -/
def lowerChars (s : String) : List Char := s.toList.map Char.toLower

/-! ## Item Processor (`AIBatchProcessor._process_assignment_item`)

The retry state machine for one assignment item.  The external provider
call and the global pause flag are oracles indexed by the attempt number;
database rows touched by the function (the item, its processing runs, the
failure log, annotation rows, the owning product's status) are carried in
an explicit state record.  Wall-clock sleeps have no state effect except
that we record each backoff `time.sleep(2 ** attempt)` call. -/

/-- `AttributePayload` dataclass from `ai_runner.py`. -/
structure AttributePayload where
  id : Nat
  name : String
  description : Option String
  allowed_values : Option (List String)
deriving DecidableEq, Repr

/-- Outcome of one `service.annotate_product` call: either the returned
attribute→value map or the text of the raised exception. -/
inductive AttemptOutcome where
  | success (anns : List (String × String))
  | failure (err : String)
deriving DecidableEq, Repr

/-- One `AIProcessingRun` row: attempt number, status, `last_error`. -/
structure RunRec where
  attempt : Nat
  status : String
  lastError : Option String
deriving DecidableEq, Repr

/-- State mutated by `_process_assignment_item`: the assignment item's
status and timestamps, the owning product's `processing_status`, and the
appended `AIProcessingRun`, `AIProviderFailureLog` and
`ProductAnnotation` rows.  Confidence scores 0.0 / 1.0 are modelled as
the naturals 0 / 1. -/
structure ItemSt where
  itemStatus : String
  startedAtSet : Bool
  completedAtSet : Bool
  productStatus : String
  runs : List RunRec
  backoffSleeps : List Nat
  failureLogs : List String
  annWrites : List (String × String × Nat)
deriving DecidableEq, Repr

/-- Environment of one item-processing call: `outcomes i` is what the
provider call at attempt `i` does, `paused i` is the value of
`AIProcessingControl.get_control().is_paused` read at the start of
attempt `i`. -/
structure ItemEnv where
  outcomes : Nat → AttemptOutcome
  paused : Nat → Bool

/-- Error classification from `_process_assignment_item`:
`error_text = str(exc).lower()` followed by the four substring tests
`"status 401" in error_text or "status 403" in error_text or
"api key" in error_text or "authentication" in error_text`. -/
def isAuthError (err : String) : Bool :=
  let t := lowerChars err
  containsChars t "status 401".toList
    || containsChars t "status 403".toList
    || containsChars t "api key".toList
    || containsChars t "authentication".toList

/-- Product cascade used in both failure paths of
`_process_assignment_item`: the product is flipped to `ai_failed` only
from the pre-failure statuses
`["ai_in_progress", "pending_ai", "pending"]`. -/
def cascadeProductFailed (ps : String) : String :=
  if ps = "ai_in_progress" ∨ ps = "pending_ai" ∨ ps = "pending" then "ai_failed" else ps

/-- Annotation persistence loop of the success path: for each requested
attribute present in the returned map, an upsert of
`(attribute name, value, confidence)` where confidence is 0 when
`str(value).strip().lower() == "unknown"` and 1 otherwise. -/
def persistAnns (attrs : List AttributePayload) (anns : List (String × String)) :
    List (String × String × Nat) :=
  attrs.filterMap fun attr =>
    match anns.lookup attr.name with
    | none => none
    | some value =>
        let confidence := if lowerChars value.trim = "unknown".toList then 0 else 1
        some (attr.name, value, confidence)

/-- The `while attempt < max_retries` loop of `_process_assignment_item`.
`attempt` is the Python loop variable before the `attempt += 1` of the
next iteration; `r` is the number of loop iterations the guard still
admits, so the guard `attempt >= max_retries` inside the failure branch
holds exactly when `r = 0` after this iteration.  Each iteration creates
an `AIProcessingRun` with status `processing` and then saves its final
status in place. -/
def processFrom (env : ItemEnv) (attrs : List AttributePayload) :
    ItemSt → Nat → Nat → ItemSt
  | st, _, 0 => st
  | st, attempt, r + 1 =>
    let a := attempt + 1
    let run : RunRec := { attempt := a, status := "processing", lastError := none }
    if env.paused a then
      -- pause check: item back to pending_ai, run failed with the pause reason, return
      { st with itemStatus := "pending_ai",
                runs := st.runs ++ [{ run with status := "failed",
                                               lastError := some "Paused by control flag" }] }
    else
      match env.outcomes a with
      | .success anns =>
          -- success: persist annotation rows, mark item ai_done, run completed, return
          { st with itemStatus := "ai_done", completedAtSet := true,
                    annWrites := st.annWrites ++ persistAnns attrs anns,
                    runs := st.runs ++ [{ run with status := "completed" }] }
      | .failure err =>
          let st' := { st with
                        runs := st.runs ++ [{ run with status := "failed", lastError := some err }],
                        failureLogs := st.failureLogs ++ [err] }
          if isAuthError err then
            -- non-retryable: item ai_failed now, cascade the product, return
            { st' with itemStatus := "ai_failed",
                       productStatus := cascadeProductFailed st'.productStatus }
          else if r = 0 then
            -- attempt >= max_retries: item ai_failed, cascade the product, loop ends
            { st' with itemStatus := "ai_failed",
                       productStatus := cascadeProductFailed st'.productStatus }
          else
            -- retryable with attempts remaining: backoff sleep 2 ** attempt, continue
            processFrom env attrs
              { st' with backoffSleeps := st'.backoffSleeps ++ [2 ^ a] } a r

/-- `_process_assignment_item`: stamp the item `ai_in_progress` with
`started_at = started_at or now()`, then run the retry loop from
`attempt = 0` with `max_retries` iterations available. -/
def processAssignmentItem (env : ItemEnv) (attrs : List AttributePayload)
    (maxRetries : Nat) (productStatus0 : String) : ItemSt :=
  let st0 : ItemSt :=
    { itemStatus := "ai_in_progress", startedAtSet := true, completedAtSet := false,
      productStatus := productStatus0, runs := [], backoffSleeps := [],
      failureLogs := [], annWrites := [] }
  processFrom env attrs st0 0 maxRetries

/-! ## Provider Gateway response normalization
(`UniversalAIService._parse_annotations`, `products/ai_service.py`)

We embed the normalization stage that runs after `json.loads` has
succeeded on the (fence-stripped) provider response, i.e. the claim's
hypothesis "parses as a JSON object" selects this stage.  The parsed
object is a string-keyed map, modelled as an association list processed
with Python-dict semantics (assignment overwrites). -/

/-- Python dict assignment `m[k] = v` on an association list: replace the
binding if the key is present, append it otherwise. -/
def assocUpsert {β : Type} : List (String × β) → String → β → List (String × β)
  | [], k, v => [(k, v)]
  | (k', v') :: rest, k, v =>
      if k' = k then (k, v) :: rest else (k', v') :: assocUpsert rest k v

/-- The `unknown_markers` set of `_parse_annotations`. -/
def unknownMarkers : List String := ["unknown", "n/a", "not available", "cannot determine", ""]

/-- `bool(attr_info.get('allowed_values'))`: an absent or empty list is
falsy. -/
def hasAllowedValues (attr : AttributePayload) : Bool :=
  match attr.allowed_values with
  | none => false
  | some l => !l.isEmpty

/-- The per-returned-attribute normalization body of `_parse_annotations`:
strip and lowercase the value, snap it case-insensitively onto the
allowed-value list when one exists, map unknown markers to `"Unknown"`,
and pass other values through verbatim. -/
def normalizeValue (attr : AttributePayload) (value : String) : String :=
  let value_str := value.trim
  let value_lower : String := ⟨lowerChars value_str⟩
  let is_unknown := value_lower ∈ unknownMarkers
  if hasAllowedValues attr then
    let allowed := (attr.allowed_values.getD []).foldl
      (fun (m : List (String × String)) v => assocUpsert m ⟨lowerChars v⟩ v) []
    match allowed.lookup value_lower with
    | some canonical => canonical
    | none => if is_unknown then "Unknown" else value_str
  else
    if is_unknown then "Unknown" else value_str

/-- One step of the loop over the returned pairs: keys that are not
requested attribute names are skipped, requested ones are normalized and
stored. -/
def collectStep (attr_names : List (String × AttributePayload))
    (normalized : List (String × String)) (kv : String × String) : List (String × String) :=
  match attr_names.lookup kv.1 with
  | none => normalized
  | some attr => assocUpsert normalized kv.1 (normalizeValue attr kv.2)

/-- Second phase of `_parse_annotations`: fold the parsed response pairs
into the `normalized` dict, skipping keys that are not requested
attribute names. -/
def normalizeReturned (anns : List (String × String)) (attrs : List AttributePayload) :
    List (String × String) :=
  let attr_names := attrs.foldl (fun m attr => assocUpsert m attr.name attr) []
  anns.foldl (collectStep attr_names) []

/-- One step of the missing-attribute loop: assign `"Unknown"` when the
attribute name is still absent from the normalized dict. -/
def fillStep (normalized : List (String × String)) (attr : AttributePayload) :
    List (String × String) :=
  match normalized.lookup attr.name with
  | some _ => normalized
  | none => assocUpsert normalized attr.name "Unknown"

/-- Third phase of `_parse_annotations` (the "CRITICAL FIX" loop): every
requested attribute still missing from `normalized` is assigned the
literal `"Unknown"`. -/
def fillMissingUnknown (attrs : List AttributePayload) (normalized : List (String × String)) :
    List (String × String) :=
  attrs.foldl fillStep normalized

/-- `_parse_annotations` after a successful JSON parse: normalize the
returned pairs, then force missing requested attributes to `"Unknown"`. -/
def parseAnnsNormalize (anns : List (String × String)) (attrs : List AttributePayload) :
    List (String × String) :=
  fillMissingUnknown attrs (normalizeReturned anns attrs)

/-! ## Finalization aggregator (`AIBatchProcessor._finalize_products`)

Per product touched by the batch: `product_items` are all
`BatchAssignmentItem` rows sharing the product's batch item. -/

/-- The per-product body of `_finalize_products`, as a function from the
sibling item statuses and the product's current `processing_status` to
its new `processing_status`. -/
def finalizeProductStatus (siblingStatuses : List String) (ps : String) : String :=
  if siblingStatuses.any (fun s => s = "ai_failed") then
    -- any failed sibling: set ai_failed unless already there
    if ps ≠ "ai_failed" then "ai_failed" else ps
  else if siblingStatuses.any (fun s => s ≠ "ai_done") then
    -- some provider not finished: leave the product untouched
    ps
  else if ps = "ai_in_progress" ∨ ps = "pending_ai" ∨ ps = "pending" ∨ ps = "ai_failed" then
    "ai_done"
  else ps

/-! ## Batch cancel / resume endpoints (`products/views.py`)

`cancel` updates every assignment, assignment item and touched product of
the batch unconditionally; `resume_ai_batch` excludes terminal items. -/

/-- `cancel`: `assignment_items.update(status='pending_human' if human
else 'pending_ai', ...)` — applied to every item of the batch, with no
status filter. -/
def cancelItemStatus (batchType : String) (_oldStatus : String) : String :=
  if batchType = "human" then "pending_human" else "pending_ai"

/-- `cancel`: products of the batch are bulk-updated to the pre-batch
pending status, again with no status filter. -/
def cancelProductStatus (batchType : String) (_oldStatus : String) : String :=
  if batchType = "ai" then "pending_ai" else "pending_human"

/-- `resume_ai_batch`: items are reset to `pending_ai` excluding those
with status in `['ai_done', 'ai_failed']`. -/
def resumeItemStatus (s : String) : String :=
  if s = "ai_done" ∨ s = "ai_failed" then s else "pending_ai"

/-! ## Selective retry (`retry_failed_ai`, `products/views.py`)

Batch-scoped slice of the store: the batch's `BatchAssignment`,
`BatchAssignmentItem` and `AIProviderFailureLog` rows.  Foreign keys are
modelled by ids resolved with `find?`; `updated_at` / `resolved_at`
timestamps take the single `now` value of the request. -/

/-- A `BatchAssignment` row.  `providerId` is the model's
`assignment_id` field (the provider id for AI assignments). -/
structure RetryAssignment where
  id : Nat
  providerId : Nat
  assignmentType : String
  status : String
  progress : Nat
  updatedAt : Nat
deriving DecidableEq, Repr, Inhabited

/-- A `BatchAssignmentItem` row. -/
structure RetryItem where
  id : Nat
  assignmentId : Nat
  status : String
  startedAt : Option Nat
  completedAt : Option Nat
  updatedAt : Nat
deriving DecidableEq, Repr, Inhabited

/-- An `AIProviderFailureLog` row. -/
structure RetryFailureLog where
  id : Nat
  itemId : Nat
  isResolved : Bool
  resolvedAt : Option Nat
deriving DecidableEq, Repr, Inhabited

/-- The batch-scoped store slice seen by `retry_failed_ai`. -/
structure RetryStore where
  assignments : List RetryAssignment
  items : List RetryItem
  flogs : List RetryFailureLog
deriving DecidableEq, Repr, Inhabited

/-- The loop body collecting `failed_provider_ids`: resolve
`log.assignment_item.assignment.assignment_id`, with the null checks of
the source loop. -/
def logProviderId (s : RetryStore) (log : RetryFailureLog) : Option Nat :=
  match s.items.find? (fun i => i.id == log.itemId) with
  | none => none
  | some item =>
      match s.assignments.find? (fun a => a.id == item.assignmentId) with
      | none => none
      | some a => some a.providerId

/-- `failed_provider_ids`: the `assignment_id` of the assignment of each
unresolved failure log's item. -/
def retryFailedProviderIds (s : RetryStore) : List Nat :=
  (s.flogs.filter fun log => !log.isResolved).filterMap (logProviderId s)

/-- Membership of an assignment in `assignments_to_retry`
(`assignment_type='ai'` and `assignment_id__in=failed_provider_ids`). -/
def assignmentInRetry (failedProviderIds : List Nat) (a : RetryAssignment) : Bool :=
  a.assignmentType == "ai" && failedProviderIds.contains a.providerId

/-- Membership of an item in the reset queryset
(`assignment__in=assignments_to_retry` and `status='ai_failed'`). -/
def itemInRetry (s : RetryStore) (failedProviderIds : List Nat) (i : RetryItem) : Bool :=
  (i.status == "ai_failed") &&
    match s.assignments.find? (fun a => a.id == i.assignmentId) with
    | some a => assignmentInRetry failedProviderIds a
    | none => false

/-- The item bulk update of `retry_failed_ai`. -/
def retryItemUpd (s : RetryStore) (failedProviderIds : List Nat) (now : Nat)
    (i : RetryItem) : RetryItem :=
  if itemInRetry s failedProviderIds i then
    { i with status := "ai_in_progress", startedAt := none, completedAt := none,
             updatedAt := now }
  else i

/-- The assignment bulk update of `retry_failed_ai`. -/
def retryAssignmentUpd (failedProviderIds : List Nat) (now : Nat)
    (a : RetryAssignment) : RetryAssignment :=
  if assignmentInRetry failedProviderIds a then
    { a with status := "pending", progress := 0, updatedAt := now }
  else a

/-- The failure-log bulk update of `retry_failed_ai`
(`failed_logs.update(is_resolved=True, resolved_at=now)`). -/
def retryLogUpd (now : Nat) (log : RetryFailureLog) : RetryFailureLog :=
  if !log.isResolved then { log with isResolved := true, resolvedAt := some now } else log

/-- `retry_failed_ai` state effect: early return when there is no
unresolved failure log, or when no provider id can be resolved from
them; otherwise reset the failed items of the failing AI assignments,
reset those assignments, and resolve the unresolved failure logs.
(The subsequent batch resubmission is the thread spawned onto
`process_batch`, modelled by the queue system below.) -/
def retryFailedAI (s : RetryStore) (now : Nat) : RetryStore :=
  let failed_logs := s.flogs.filter fun log => !log.isResolved
  if failed_logs.isEmpty then s
  else
    let failedProviderIds := retryFailedProviderIds s
    if failedProviderIds.isEmpty then s
    else
      { assignments := s.assignments.map (retryAssignmentUpd failedProviderIds now),
        items := s.items.map (retryItemUpd s failedProviderIds now),
        flogs := s.flogs.map (retryLogUpd now) }

/-- An assignment is clean when no unresolved failure log points (through
its item) at one of the assignment's items. -/
def cleanAssignment (s : RetryStore) (a : RetryAssignment) : Prop :=
  ∀ log ∈ s.flogs, log.isResolved = false →
    ∀ i ∈ s.items, i.id = log.itemId → i.assignmentId ≠ a.id

instance (s : RetryStore) (a : RetryAssignment) : Decidable (cleanAssignment s a) := by
  unfold cleanAssignment; infer_instance

/-! ## Service construction (`UniversalAIService.__init__`, `get_ai_service`)

The constructor reads its fields from the provider-config dictionary and
raises `AIServiceError` when the api key is missing or falsy, before any
prompt construction or HTTP call can happen.  String-valued config
entries are modelled as an association list. -/

/-- The fields `__init__` stores on the service object. -/
structure AIServiceState where
  service_name : String
  model_name : Option String
  api_key : Option String
  prompt_template : Option String
  custom_endpoint : Option String
deriving DecidableEq, Repr

/-- The `provider_config` argument of `UniversalAIService.__init__`. -/
structure ProviderConfigInput where
  service_name : Option String
  model_name : Option String
  config : List (String × String)
deriving DecidableEq, Repr

/-- An `AIProvider` row as read by `get_ai_service` (`config` is the
JSON dict, already defaulted to `{}` when null). -/
structure AIProviderRec where
  id : Nat
  service_name : String
  model_name : Option String
  config : List (String × String)
deriving DecidableEq, Repr

/-- `UniversalAIService.__init__`: store the lowercased service name and
the config-derived fields, then raise `AIServiceError` when
`config.get('api_key')` is absent or falsy (Python truthiness: a missing
key or an empty string fails the `if not self.api_key` check). -/
def universalAIServiceInit (pc : ProviderConfigInput) : Except String AIServiceState :=
  let service_name : String := ⟨lowerChars (pc.service_name.getD "")⟩
  let api_key := pc.config.lookup "api_key"
  let prompt_template := pc.config.lookup "prompt_template"
  let custom_endpoint := pc.config.lookup "custom_endpoint"
  if api_key = none ∨ api_key = some "" then
    .error "API key not found in provider config"
  else
    .ok { service_name := service_name, model_name := pc.model_name, api_key := api_key,
          prompt_template := prompt_template, custom_endpoint := custom_endpoint }

/-- `get_ai_service`: resolve the active provider row (`none` models
`AIProvider.DoesNotExist`) and construct the service from its fields. -/
def get_ai_service (provider : Option AIProviderRec) : Except String AIServiceState :=
  match provider with
  | none => .error "AI Provider not found or inactive"
  | some p =>
      universalAIServiceInit
        { service_name := some p.service_name, model_name := p.model_name, config := p.config }

/-! ## Sequential batch queue (`AIBatchProcessor.process_batch`)

Interleaving semantics for concurrent callers of `process_batch`.  Each
thread runs the source's control flow:

```
with _QUEUE_LOCK:                       # one atomic step (the mutex)
    if batch_id in _BATCH_QUEUE: return #   -> submitDup
    _BATCH_QUEUE.append(batch_id)       #   -> submitAdd
try:
    with _BATCH_PROCESS_LOCK:           # acquire -> inBody ... release
        self._process_batch_internal(batch_id)
finally:
    with _QUEUE_LOCK:                   # dequeue (guards membership, then remove)
        if batch_id in _BATCH_QUEUE:
            _BATCH_QUEUE.remove(batch_id)
```

The body may take arbitrarily many internal steps while the thread sits
at `inBody`; `release` covers the `with`-block exit on both normal return
and exception, after which the `finally` clause removes the batch id. -/

/-- Program counter of one thread inside `process_batch`. -/
inductive BatchPC where
  | start        -- about to run the queue-lock block
  | queuedWait   -- appended to the queue, blocked on `_BATCH_PROCESS_LOCK`
  | inBody       -- holding the lock, running `_process_batch_internal`
  | removing     -- lock released, about to run the `finally` removal
  | doneSkipped  -- returned early on the duplicate check
  | doneRun      -- finished (body ran, queue entry removed)
deriving DecidableEq, Repr

/-- One thread: the batch id it was called with and its program counter. -/
structure BatchThread where
  batch : Nat
  pc : BatchPC
deriving DecidableEq, Repr

/-- Shared state: the per-thread states, the module-level `_BATCH_QUEUE`
list and the `_BATCH_PROCESS_LOCK` holder. -/
structure QueueState where
  threads : Nat → BatchThread
  queue : List Nat
  lockHolder : Option Nat

/-- The interleaving step relation: `QStep s t s'` says thread `t` takes
one atomic step.  The `exc` flag on `release` records whether the body
ended normally or by raising; the `with`/`finally` structure makes both
paths release the lock and then remove the queue entry. -/
inductive QStep : QueueState → Nat → QueueState → Prop where
  | submitDup (s : QueueState) (t : Nat) :
      (s.threads t).pc = .start → (s.threads t).batch ∈ s.queue →
      QStep s t { s with
        threads := Function.update s.threads t { s.threads t with pc := .doneSkipped } }
  | submitAdd (s : QueueState) (t : Nat) :
      (s.threads t).pc = .start → (s.threads t).batch ∉ s.queue →
      QStep s t { s with
        queue := s.queue ++ [(s.threads t).batch],
        threads := Function.update s.threads t { s.threads t with pc := .queuedWait } }
  | acquire (s : QueueState) (t : Nat) :
      (s.threads t).pc = .queuedWait → s.lockHolder = none →
      QStep s t { s with
        lockHolder := some t,
        threads := Function.update s.threads t { s.threads t with pc := .inBody } }
  | release (s : QueueState) (t : Nat) (exc : Bool) :
      (s.threads t).pc = .inBody →
      QStep s t { s with
        lockHolder := none,
        threads := Function.update s.threads t { s.threads t with pc := .removing } }
  | dequeue (s : QueueState) (t : Nat) :
      (s.threads t).pc = .removing →
      QStep s t { s with
        queue := s.queue.erase (s.threads t).batch,
        threads := Function.update s.threads t { s.threads t with pc := .doneRun } }

/-- Reachability under any interleaving. -/
def QReaches (s s' : QueueState) : Prop :=
  Relation.ReflTransGen (fun a b => ∃ t, QStep a t b) s s'

/-- Initial state: every thread at the entry of `process_batch` with its
batch id, empty `_BATCH_QUEUE`, lock free. -/
def startState (batches : Nat → Nat) : QueueState :=
  { threads := fun t => { batch := batches t, pc := .start }, queue := [], lockHolder := none }

/-- A thread is active while its batch id is supposed to be in the
queued set (between the append and the `finally` removal). -/
def activePC (p : BatchPC) : Prop :=
  p = .queuedWait ∨ p = .inBody ∨ p = .removing

/-- The queue-system invariant: the lock holder is the unique body
runner; active threads own queue entries; each batch id has at most one
active thread and each queue entry an active owner; the queue has no
duplicates. -/
def QInv (s : QueueState) : Prop :=
  (∀ t, (s.threads t).pc = .inBody → s.lockHolder = some t) ∧
  (∀ t, activePC (s.threads t).pc → (s.threads t).batch ∈ s.queue) ∧
  (∀ t1 t2, activePC (s.threads t1).pc → activePC (s.threads t2).pc →
      (s.threads t1).batch = (s.threads t2).batch → t1 = t2) ∧
  (∀ b ∈ s.queue, ∃ t, activePC (s.threads t).pc ∧ (s.threads t).batch = b) ∧
  s.queue.Nodup

/-- Concrete two-thread scenario: thread 1 has already submitted batch 5
(one `submitAdd` step from the initial state). -/
def dupSubmitS1 : QueueState :=
  { startState (fun _ => 5) with
    queue := (startState (fun _ => 5)).queue ++ [((startState (fun _ => 5)).threads 1).batch],
    threads := Function.update (startState (fun _ => 5)).threads 1
      { (startState (fun _ => 5)).threads 1 with pc := .queuedWait } }

/-- The state after thread 0 then submits the same batch 5 and hits the
duplicate check. -/
def dupSubmitS2 : QueueState :=
  { dupSubmitS1 with
    threads := Function.update dupSubmitS1.threads 0
      { dupSubmitS1.threads 0 with pc := .doneSkipped } }

/-- Requested attributes for the completeness example: five attributes,
`"Material"` among them. -/
def c6exAttrs : List AttributePayload :=
  [⟨1, "Color", none, some ["Red", "Blue"]⟩, ⟨2, "Material", none, none⟩,
   ⟨3, "Size", none, none⟩, ⟨4, "Fit", none, none⟩, ⟨5, "Style", none, none⟩]

/-- A parsed provider response missing `"Material"`. -/
def c6exAnns : List (String × String) :=
  [("Color", "red"), ("Size", "M"), ("Fit", "Slim"), ("Style", "Casual")]

/-- Selective-retry example store: provider 10's assignment has a failed
item with an unresolved failure log; provider 20's assignment is
completed with an `ai_done` item and no failures. -/
def c9exStore : RetryStore :=
  { assignments := [⟨1, 10, "ai", "failed", 40, 0⟩, ⟨2, 20, "ai", "completed", 100, 0⟩],
    items := [⟨100, 1, "ai_failed", some 1, none, 0⟩, ⟨101, 2, "ai_done", some 1, some 2, 0⟩],
    flogs := [⟨1000, 100, false, none⟩] }

/-! # Theorems -/

/-! ## Association-list helper lemmas -/

theorem lookup_cons_self {β : Type} (k : String) (v : β) (tl : List (String × β)) :
    ((k, v) :: tl).lookup k = some v := by
  simp [List.lookup]

theorem lookup_cons_ne {β : Type} (k k' : String) (v : β) (tl : List (String × β))
    (h : k' ≠ k) : ((k, v) :: tl).lookup k' = tl.lookup k' := by
  have hb : (k' == k) = false := beq_eq_false_iff_ne.mpr h
  simp [List.lookup, hb]

theorem lookup_assocUpsert_self {β : Type} (m : List (String × β)) (k : String) (v : β) :
    (assocUpsert m k v).lookup k = some v := by
  induction m with
  | nil => simp [assocUpsert, List.lookup]
  | cons hd tl ih =>
      obtain ⟨k', v'⟩ := hd
      by_cases h : k' = k
      · simp [assocUpsert, h, List.lookup]
      · rw [assocUpsert, if_neg h, lookup_cons_ne _ _ _ _ (fun he => h he.symm)]
        exact ih

theorem lookup_assocUpsert_ne {β : Type} (m : List (String × β)) (k k' : String) (v : β)
    (h : k' ≠ k) : (assocUpsert m k v).lookup k' = m.lookup k' := by
  induction m with
  | nil =>
      rw [assocUpsert, lookup_cons_ne _ _ _ _ h]
  | cons hd tl ih =>
      obtain ⟨k'', v''⟩ := hd
      by_cases hk : k'' = k
      · subst hk
        rw [assocUpsert, if_pos rfl, lookup_cons_ne _ _ _ _ h, lookup_cons_ne _ _ _ _ h]
      · rw [assocUpsert, if_neg hk]
        by_cases hk' : k' = k''
        · subst hk'
          rw [lookup_cons_self, lookup_cons_self]
        · rw [lookup_cons_ne _ _ _ _ hk', lookup_cons_ne _ _ _ _ hk', ih]

theorem fillStep_pres (m : List (String × String)) (attr : AttributePayload)
    (k : String) (v : String) (h : m.lookup k = some v) :
    (fillStep m attr).lookup k = some v := by
  unfold fillStep
  cases hm : m.lookup attr.name with
  | some _ => simpa [hm] using h
  | none =>
      have hk : k ≠ attr.name := by
        intro hkeq; rw [hkeq, hm] at h; exact Option.noConfusion h
      simp only [hm]
      rw [lookup_assocUpsert_ne _ _ _ _ hk]
      exact h

theorem fill_foldl_pres (attrs : List AttributePayload) (m : List (String × String))
    (k : String) (v : String) (h : m.lookup k = some v) :
    ((attrs.foldl fillStep m).lookup k) = some v := by
  induction attrs generalizing m with
  | nil => simpa using h
  | cons b rest ih => exact ih _ (fillStep_pres m b k v h)

theorem fill_foldl_sets (attrs : List AttributePayload) (m : List (String × String))
    (a : AttributePayload) (hmem : a ∈ attrs) (h : m.lookup a.name = none) :
    ((attrs.foldl fillStep m).lookup a.name) = some "Unknown" := by
  induction attrs generalizing m with
  | nil => cases hmem
  | cons b rest ih =>
      by_cases hn : b.name = a.name
      · have hstep : (fillStep m b).lookup a.name = some "Unknown" := by
          unfold fillStep
          rw [hn, h]
          exact lookup_assocUpsert_self m a.name "Unknown"
        exact fill_foldl_pres rest _ _ _ hstep
      · have hmem' : a ∈ rest := by
          rcases List.mem_cons.mp hmem with rfl | hr
          · exact absurd rfl hn
          · exact hr
        have hstep : (fillStep m b).lookup a.name = none := by
          unfold fillStep
          cases hm : m.lookup b.name with
          | some _ => simpa [hm] using h
          | none =>
              simp only [hm]
              rw [lookup_assocUpsert_ne _ _ _ _ (fun he => hn he.symm)]
              exact h
        exact ih _ hmem' hstep

theorem collect_foldl_none (anns : List (String × String))
    (an : List (String × AttributePayload)) (m : List (String × String)) (k : String)
    (hm : m.lookup k = none) (hk : k ∉ anns.map Prod.fst) :
    ((anns.foldl (collectStep an) m).lookup k) = none := by
  induction anns generalizing m with
  | nil => simpa using hm
  | cons kv rest ih =>
      have hk1 : k ≠ kv.1 := fun he => hk (by simp [he])
      have hk2 : k ∉ rest.map Prod.fst := fun he => hk (by simp [he])
      refine ih _ ?_ hk2
      unfold collectStep
      cases an.lookup kv.1 with
      | none => exact hm
      | some attr =>
          simp only
          rw [lookup_assocUpsert_ne _ _ _ _ hk1]
          exact hm

/-- C6: for every successfully parsed provider response and every
requested attribute list, the normalized map of `_parse_annotations`
contains an entry for every requested attribute name, and a requested
attribute absent from the parsed response is assigned `"Unknown"` rather
than omitted. -/
theorem parse_anns_completeness (anns : List (String × String))
    (attrs : List AttributePayload) (attr : AttributePayload) (hmem : attr ∈ attrs) :
    ((parseAnnsNormalize anns attrs).lookup attr.name).isSome = true ∧
    (attr.name ∉ anns.map Prod.fst →
      (parseAnnsNormalize anns attrs).lookup attr.name = some "Unknown") := by
  constructor
  · cases hv : (normalizeReturned anns attrs).lookup attr.name with
    | none =>
        unfold parseAnnsNormalize fillMissingUnknown
        rw [fill_foldl_sets attrs _ attr hmem hv]
        rfl
    | some v =>
        unfold parseAnnsNormalize fillMissingUnknown
        rw [fill_foldl_pres attrs _ _ _ hv]
        rfl
  · intro hk
    have h0 : (normalizeReturned anns attrs).lookup attr.name = none := by
      unfold normalizeReturned
      exact collect_foldl_none anns _ [] attr.name rfl hk
    unfold parseAnnsNormalize fillMissingUnknown
    exact fill_foldl_sets attrs _ attr hmem h0

/-- Witness for C6: a response missing `"Material"` out of 5 requested
attributes yields a normalized map with all 5 keys and
`"Material" = "Unknown"`. -/
theorem parse_anns_completeness_witness :
    ((⟨2, "Material", none, none⟩ : AttributePayload) ∈ c6exAttrs) ∧
    ("Material" ∉ c6exAnns.map Prod.fst) ∧
    ((parseAnnsNormalize c6exAnns c6exAttrs).lookup "Material").isSome = true ∧
    (parseAnnsNormalize c6exAnns c6exAttrs).lookup "Material" = some "Unknown" ∧
    (parseAnnsNormalize c6exAnns c6exAttrs).length = 5 :=
  ⟨by decide, by decide,
   (parse_anns_completeness c6exAnns c6exAttrs ⟨2, "Material", none, none⟩ (by decide)).1,
   (parse_anns_completeness c6exAnns c6exAttrs ⟨2, "Material", none, none⟩ (by decide)).2
     (by decide),
   by decide⟩

/-! ## C10: service construction rejects a missing api key -/

/-- C10: a provider configuration whose config dict has no `api_key`
entry (or a falsy empty one) makes `UniversalAIService.__init__` — and
hence `get_ai_service` — raise `AIServiceError` at construction time,
for every provider kind. -/
theorem missing_api_key_rejected (pc : ProviderConfigInput)
    (h : pc.config.lookup "api_key" = none ∨ pc.config.lookup "api_key" = some "")
    (p : AIProviderRec)
    (hp : p.config.lookup "api_key" = none ∨ p.config.lookup "api_key" = some "") :
    universalAIServiceInit pc = .error "API key not found in provider config" ∧
    get_ai_service (some p) = .error "API key not found in provider config" := by
  constructor
  · unfold universalAIServiceInit
    exact if_pos h
  · unfold get_ai_service universalAIServiceInit
    exact if_pos hp

/-- Witness for C10: a built-in `google` provider (key transmitted in
the URL, not a header) with no `api_key` in its config is rejected. -/
theorem missing_api_key_rejected_witness :
    ((([("max_tokens", "1000")] : List (String × String)).lookup "api_key" = none ∨
        ([("max_tokens", "1000")] : List (String × String)).lookup "api_key" = some "") ∧
      universalAIServiceInit
        ⟨some "google", some "gemini-1.5-pro", [("max_tokens", "1000")]⟩ =
        .error "API key not found in provider config") ∧
    get_ai_service (some ⟨3, "google", some "gemini-1.5-pro", [("max_tokens", "1000")]⟩) =
      .error "API key not found in provider config" :=
  ⟨⟨Or.inl rfl,
    (missing_api_key_rejected
      ⟨some "google", some "gemini-1.5-pro", [("max_tokens", "1000")]⟩ (Or.inl rfl)
      ⟨3, "google", some "gemini-1.5-pro", [("max_tokens", "1000")]⟩ (Or.inl rfl)).1⟩,
    (missing_api_key_rejected
      ⟨some "google", some "gemini-1.5-pro", [("max_tokens", "1000")]⟩ (Or.inl rfl)
      ⟨3, "google", some "gemini-1.5-pro", [("max_tokens", "1000")]⟩ (Or.inl rfl)).2⟩

/-! ## C7: finalization failure dominance -/

/-- C7: at finalization, any `ai_failed` sibling item forces the product
to `ai_failed`; the product is set `ai_done` only when every sibling
item is `ai_done`; and a product is never finalized `ai_done` while a
sibling item is `ai_failed`. -/
theorem finalize_failure_dominance (sibs : List String) (ps : String) :
    (("ai_failed" ∈ sibs) → finalizeProductStatus sibs ps = "ai_failed") ∧
    ((finalizeProductStatus sibs ps = "ai_done" ∧ ps ≠ "ai_done") →
        ∀ t ∈ sibs, t = "ai_done") ∧
    (("ai_failed" ∈ sibs) → finalizeProductStatus sibs ps ≠ "ai_done") := by
  have hfail : ("ai_failed" ∈ sibs) → (sibs.any fun s => s = "ai_failed") = true := by
    intro hm
    exact List.any_eq_true.mpr ⟨"ai_failed", hm, by simp⟩
  refine ⟨?_, ?_, ?_⟩
  · intro hm
    unfold finalizeProductStatus
    rw [if_pos (hfail hm)]
    by_cases hps : ps = "ai_failed"
    · rw [if_neg (by simpa using hps)]
      exact hps
    · rw [if_pos (by simpa using hps)]
  · rintro ⟨hres, hps⟩ t ht
    unfold finalizeProductStatus at hres
    by_cases h1 : (sibs.any fun s => s = "ai_failed") = true
    · rw [if_pos h1] at hres
      by_cases hpsf : ps = "ai_failed"
      · rw [if_neg (by simpa using hpsf)] at hres
        exact absurd (hres ▸ hpsf) (by subst hres; simp_all)
      · rw [if_pos (by simpa using hpsf)] at hres
        exact absurd hres (by decide)
    · rw [if_neg h1] at hres
      by_cases h2 : (sibs.any fun s => s ≠ "ai_done") = true
      · rw [if_pos h2] at hres
        exact absurd hres hps
      · have hall : ∀ x ∈ sibs, x = "ai_done" := by simpa using h2
        exact hall t ht
  · intro hm
    unfold finalizeProductStatus
    rw [if_pos (hfail hm)]
    by_cases hps : ps = "ai_failed"
    · rw [if_neg (by simpa using hps)]
      rw [hps]
      decide
    · rw [if_pos (by simpa using hps)]
      decide

/-- Witness for C7: a product with one `ai_done` and one `ai_failed`
sibling item in `ai_in_progress` finalizes to `ai_failed`, never
`ai_done`. -/
theorem finalize_failure_dominance_witness :
    (("ai_failed" : String) ∈ ["ai_done", "ai_failed"]) ∧
    finalizeProductStatus ["ai_done", "ai_failed"] "ai_in_progress" = "ai_failed" ∧
    finalizeProductStatus ["ai_done", "ai_failed"] "ai_in_progress" ≠ "ai_done" ∧
    (finalizeProductStatus ["ai_done", "pending_ai"] "ai_in_progress" = "ai_done" ∧
        ("ai_in_progress" : String) ≠ "ai_done" → ∀ t ∈ ["ai_done", "pending_ai"], t = "ai_done") :=
  ⟨by decide,
   (finalize_failure_dominance ["ai_done", "ai_failed"] "ai_in_progress").1 (by decide),
   (finalize_failure_dominance ["ai_done", "ai_failed"] "ai_in_progress").2.2 (by decide),
   (finalize_failure_dominance ["ai_done", "pending_ai"] "ai_in_progress").2.1⟩

/-! ## C8: terminal statuses under cancel / finalize / resume / retry -/

/-- Counterexample for C8 as stated: `cancel` on an AI batch resets an
`ai_done` assignment item (and an `ai_done` product) to `pending_ai` —
a core operation that is not an operator retry overwrites terminal
values — and `_finalize_products` replaces a product's terminal
`ai_failed` with `ai_done` once every sibling item is `ai_done`. -/
theorem terminal_status_counterexample :
    cancelItemStatus "ai" "ai_done" = "pending_ai" ∧
    ("pending_ai" : String) ≠ "ai_done" ∧
    cancelProductStatus "ai" "ai_done" = "pending_ai" ∧
    cancelProductStatus "ai" "ai_failed" = "pending_ai" ∧
    finalizeProductStatus ["ai_done"] "ai_failed" = "ai_done" := by
  refine ⟨rfl, by decide, rfl, rfl, by decide⟩

/-- C8 as amended: batch cancellation unconditionally resets every
assignment item and product (terminal ones included) to the pending
status, and finalization replaces a product's `ai_failed` with `ai_done`
once all sibling items are `ai_done`; by contrast the resume endpoint
leaves terminal items untouched and the selective retry resets only
`ai_failed` items, never `ai_done` ones. -/
theorem terminal_status_amended :
    (∀ old, cancelItemStatus "ai" old = "pending_ai") ∧
    (∀ old, cancelProductStatus "ai" old = "pending_ai") ∧
    finalizeProductStatus ["ai_done"] "ai_failed" = "ai_done" ∧
    resumeItemStatus "ai_done" = "ai_done" ∧
    resumeItemStatus "ai_failed" = "ai_failed" ∧
    (∀ s fp now i, RetryItem.status i = "ai_done" → retryItemUpd s fp now i = i) := by
  refine ⟨fun old => rfl, fun old => rfl, by decide, by decide, by decide, ?_⟩
  intro s fp now i hs
  unfold retryItemUpd itemInRetry
  rw [hs]
  simp

/-- Witness for C8 (amended): the retry-update clause applied to a
concrete `ai_done` item. -/
theorem terminal_status_amended_witness :
    RetryItem.status ⟨101, 2, "ai_done", some 1, some 2, 0⟩ = "ai_done" ∧
    retryItemUpd ⟨[], [], []⟩ [10] 7 ⟨101, 2, "ai_done", some 1, some 2, 0⟩ =
      ⟨101, 2, "ai_done", some 1, some 2, 0⟩ :=
  ⟨rfl, (terminal_status_amended).2.2.2.2.2 ⟨[], [], []⟩ [10] 7
    ⟨101, 2, "ai_done", some 1, some 2, 0⟩ rfl⟩

/-! ## C4: authentication short-circuit -/

/-- Counterexample for C4 as stated: the code's auth signatures are
`"status 401"` / `"status 403"` (plus `"api key"` / `"authentication"`),
not bare `"401"` / `"403"`.  The error text `"Error 401"` matches the
claimed signature `"401"`, yet the processor retries it as transient:
with `max_retries = 2` it produces 2 ProcessingRuns, not 1. -/
theorem auth_signature_counterexample :
    containsChars (lowerChars "Error 401") "401".toList = true ∧
    isAuthError "Error 401" = false ∧
    (processAssignmentItem ⟨fun _ => .failure "Error 401", fun _ => false⟩ []
        2 "pending_ai").runs.length = 2 ∧
    (processAssignmentItem ⟨fun _ => .failure "Error 401", fun _ => false⟩ []
        2 "pending_ai").runs.length ≠ 1 := by
  refine ⟨by decide, by decide, by decide, by decide⟩

/-- C4 as amended: if an attempt fails with an error whose lowercased
text contains one of the code's authentication signatures
(`"status 401"`, `"status 403"`, `"api key"`, `"authentication"`), the
item is marked `ai_failed` immediately without consuming the remaining
attempts — a failure on attempt 1 of `max_retries` produces exactly one
ProcessingRun — and the owning product is cascaded to `ai_failed` only
from a pre-failure status. -/
theorem auth_error_short_circuit (env : ItemEnv) (attrs : List AttributePayload)
    (maxRetries : Nat) (hm : 1 ≤ maxRetries) (err : String)
    (hout : env.outcomes 1 = .failure err) (hpause : env.paused 1 = false)
    (hauth : isAuthError err = true) (ps0 : String) :
    processAssignmentItem env attrs maxRetries ps0 =
      { itemStatus := "ai_failed", startedAtSet := true, completedAtSet := false,
        productStatus := cascadeProductFailed ps0,
        runs := [{ attempt := 1, status := "failed", lastError := some err }],
        backoffSleeps := [], failureLogs := [err], annWrites := [] } := by
  obtain ⟨m, rfl⟩ : ∃ m, maxRetries = m + 1 := ⟨maxRetries - 1, by omega⟩
  unfold processAssignmentItem processFrom
  simp [hpause, hout, hauth]

/-- Witness for C4 (amended): a `"status 401"` failure on attempt 1 of
`max_retries = 5` yields exactly one failed run and an immediate
`ai_failed` item with the product cascaded from `pending_ai`. -/
theorem auth_error_short_circuit_witness :
    (1 ≤ 5 ∧
      (⟨fun _ => .failure "API request failed with status 401: bad key",
        fun _ => false⟩ : ItemEnv).outcomes 1 =
        .failure "API request failed with status 401: bad key" ∧
      (⟨fun _ => .failure "API request failed with status 401: bad key",
        fun _ => false⟩ : ItemEnv).paused 1 = false ∧
      isAuthError "API request failed with status 401: bad key" = true) ∧
    processAssignmentItem
        ⟨fun _ => .failure "API request failed with status 401: bad key", fun _ => false⟩
        [] 5 "pending_ai" =
      { itemStatus := "ai_failed", startedAtSet := true, completedAtSet := false,
        productStatus := cascadeProductFailed "pending_ai",
        runs := [{ attempt := 1, status := "failed",
                   lastError := some "API request failed with status 401: bad key" }],
        backoffSleeps := [],
        failureLogs := ["API request failed with status 401: bad key"], annWrites := [] } :=
  ⟨⟨by decide, rfl, rfl, by decide⟩,
   auth_error_short_circuit
     ⟨fun _ => .failure "API request failed with status 401: bad key", fun _ => false⟩
     [] 5 (by decide) "API request failed with status 401: bad key" rfl rfl (by decide)
     "pending_ai"⟩

/-! ## C3: retry exhaustion -/

/-- Loop lemma: when every attempt fails with a transient (non-auth)
error and the pause flag stays down, the loop runs all its remaining
iterations, appending one failed run and one failure log per attempt and
one backoff sleep `2 ^ attempt` per non-final attempt, then marks the
item `ai_failed` and cascades the product. -/
theorem processFrom_transient (errf : Nat → String)
    (hauth : ∀ i, isAuthError (errf i) = false) (attrs : List AttributePayload) :
    ∀ (r : Nat) (st : ItemSt) (attempt : Nat),
      processFrom ⟨fun i => .failure (errf i), fun _ => false⟩ attrs st attempt (r + 1) =
        { st with
          itemStatus := "ai_failed",
          productStatus := cascadeProductFailed st.productStatus,
          runs := st.runs ++ (List.range' (attempt + 1) (r + 1)).map
              (fun a => { attempt := a, status := "failed", lastError := some (errf a) }),
          failureLogs := st.failureLogs ++ (List.range' (attempt + 1) (r + 1)).map errf,
          backoffSleeps := st.backoffSleeps ++ (List.range' (attempt + 1) r).map
              (fun a => 2 ^ a) } := by
  intro r
  induction r with
  | zero =>
      intro st attempt
      rw [processFrom.eq_2]
      simp [hauth (attempt + 1), List.range'_succ]
  | succ r ih =>
      intro st attempt
      rw [processFrom.eq_2]
      simp only [hauth (attempt + 1), Bool.false_eq_true, if_false, Nat.succ_ne_zero,
        ite_false]
      rw [ih]
      simp [List.range'_succ, List.append_assoc]

/-- C3: with provider-configured `max_retries = n ≥ 1` and every attempt
failing with a transient (non-auth) error, processing creates exactly
`n` ProcessingRuns with strictly increasing attempt numbers `1..n`,
sleeps `2 ^ attempt` after each failed non-final attempt, leaves the
item `ai_failed`, and cascades the product to `ai_failed` exactly when
it was in a pre-failure status. -/
theorem retry_exhaustion (errf : Nat → String)
    (hauth : ∀ i, isAuthError (errf i) = false) (attrs : List AttributePayload)
    (n : Nat) (hn : 1 ≤ n) (ps0 : String) :
    processAssignmentItem ⟨fun i => .failure (errf i), fun _ => false⟩ attrs n ps0 =
      { itemStatus := "ai_failed", startedAtSet := true, completedAtSet := false,
        productStatus := cascadeProductFailed ps0,
        runs := (List.range' 1 n).map
            (fun a => { attempt := a, status := "failed", lastError := some (errf a) }),
        backoffSleeps := (List.range' 1 (n - 1)).map (fun a => 2 ^ a),
        failureLogs := (List.range' 1 n).map errf, annWrites := [] } ∧
    (processAssignmentItem ⟨fun i => .failure (errf i), fun _ => false⟩ attrs n
        ps0).runs.length = n ∧
    (processAssignmentItem ⟨fun i => .failure (errf i), fun _ => false⟩ attrs n
        ps0).runs.map RunRec.attempt = List.range' 1 n ∧
    ((processAssignmentItem ⟨fun i => .failure (errf i), fun _ => false⟩ attrs n
        ps0).runs.map RunRec.attempt).Pairwise (· < ·) := by
  obtain ⟨m, rfl⟩ : ∃ m, n = m + 1 := ⟨n - 1, by omega⟩
  have h := processFrom_transient errf hauth attrs m
    ⟨"ai_in_progress", true, false, ps0, [], [], [], []⟩ 0
  have hmain : processAssignmentItem ⟨fun i => .failure (errf i), fun _ => false⟩ attrs
      (m + 1) ps0 =
      { itemStatus := "ai_failed", startedAtSet := true, completedAtSet := false,
        productStatus := cascadeProductFailed ps0,
        runs := (List.range' 1 (m + 1)).map
            (fun a => { attempt := a, status := "failed", lastError := some (errf a) }),
        backoffSleeps := (List.range' 1 (m + 1 - 1)).map (fun a => 2 ^ a),
        failureLogs := (List.range' 1 (m + 1)).map errf, annWrites := [] } := by
    unfold processAssignmentItem
    simpa using h
  have hruns : (processAssignmentItem ⟨fun i => .failure (errf i), fun _ => false⟩ attrs
      (m + 1) ps0).runs.map RunRec.attempt = List.range' 1 (m + 1) := by
    rw [hmain]
    show ((List.range' 1 (m + 1)).map
        (fun a => ({ attempt := a, status := "failed", lastError := some (errf a) } : RunRec))
        ).map RunRec.attempt = List.range' 1 (m + 1)
    rw [List.map_map]
    have hcomp : (RunRec.attempt ∘ fun a =>
        ({ attempt := a, status := "failed", lastError := some (errf a) } : RunRec)) =
        fun a => a := by
      funext a
      rfl
    rw [hcomp]
    exact List.map_id' _
  refine ⟨hmain, ?_, hruns, ?_⟩
  · rw [hmain]
    simp
  · rw [hruns]
    exact List.pairwise_lt_range' 1 (m + 1)

/-- Witness for C3: three transient failures with `max_retries = 3`. -/
theorem retry_exhaustion_witness :
    isAuthError "boom" = false ∧ 1 ≤ 3 ∧
    processAssignmentItem ⟨fun _ => .failure "boom", fun _ => false⟩ [] 3 "pending_ai" =
      { itemStatus := "ai_failed", startedAtSet := true, completedAtSet := false,
        productStatus := "ai_failed",
        runs := [{ attempt := 1, status := "failed", lastError := some "boom" },
                 { attempt := 2, status := "failed", lastError := some "boom" },
                 { attempt := 3, status := "failed", lastError := some "boom" }],
        backoffSleeps := [2, 4], failureLogs := ["boom", "boom", "boom"],
        annWrites := [] } :=
  ⟨by decide, by decide, by
    have h := (retry_exhaustion (fun _ => "boom")
      (fun i => (by decide : isAuthError "boom" = false)) [] 3 (by decide) "pending_ai").1
    rw [h]
    decide⟩

/-! ## C5: pause interruption -/

/-- Loop lemma: with the pause flag raised from attempt `k` on and
transient failures before it, the loop fails attempts `attempt+1..k-1`
normally and then, at attempt `k`, resets the item to `pending_ai`,
marks the `k`-th run failed with the pause reason, and returns without
touching the product or the remaining attempts. -/
theorem processFrom_pause (errf : Nat → String)
    (hauth : ∀ i, isAuthError (errf i) = false) (attrs : List AttributePayload) (k : Nat) :
    ∀ (r : Nat) (st : ItemSt) (attempt : Nat), attempt < k → k ≤ attempt + r →
      processFrom ⟨fun i => .failure (errf i), fun i => decide (k ≤ i)⟩ attrs st attempt r =
        { st with
          itemStatus := "pending_ai",
          runs := (st.runs ++ (List.range' (attempt + 1) (k - 1 - attempt)).map
              (fun a => { attempt := a, status := "failed", lastError := some (errf a) })) ++
              [{ attempt := k, status := "failed", lastError := some "Paused by control flag" }],
          failureLogs := st.failureLogs ++ (List.range' (attempt + 1) (k - 1 - attempt)).map errf,
          backoffSleeps := st.backoffSleeps ++
            (List.range' (attempt + 1) (k - 1 - attempt)).map (fun a => 2 ^ a) } := by
  intro r
  induction r with
  | zero =>
      intro st attempt h1 h2
      omega
  | succ r ih =>
      intro st attempt h1 h2
      rw [processFrom.eq_2]
      by_cases hk : k ≤ attempt + 1
      · have hek : attempt + 1 = k := by omega
        have h0 : k - 1 - attempt = 0 := by omega
        simp [hk, h0, hek]
      · have hkd : (decide (k ≤ attempt + 1)) = false := by
          simp only [decide_eq_false_iff_not]
          omega
        have hr : r ≠ 0 := by omega
        simp only [hkd, Bool.false_eq_true, if_false, ite_false]
        simp only [hauth (attempt + 1), Bool.false_eq_true, if_false, hr, ite_false]
        rw [ih _ (attempt + 1) (by omega) (by omega)]
        have hsplit : k - 1 - attempt = (k - 1 - (attempt + 1)) + 1 := by omega
        rw [hsplit]
        simp [List.range'_succ, List.append_assoc]

/-- C5: if the pause flag is up when attempt `k ≤ max_retries` begins
(after transient failures on the earlier attempts), the item is set back
to `pending_ai`, the just-created run (the `k`-th and last) is marked
failed with the pause reason, no further attempts are consumed, the item
is not `ai_failed`, and the product is untouched. -/
theorem pause_interruption (errf : Nat → String)
    (hauth : ∀ i, isAuthError (errf i) = false) (attrs : List AttributePayload)
    (k maxRetries : Nat) (hk1 : 1 ≤ k) (hkm : k ≤ maxRetries) (ps0 : String) :
    processAssignmentItem ⟨fun i => .failure (errf i), fun i => decide (k ≤ i)⟩ attrs
        maxRetries ps0 =
      { itemStatus := "pending_ai", startedAtSet := true, completedAtSet := false,
        productStatus := ps0,
        runs := ((List.range' 1 (k - 1)).map
            (fun a => { attempt := a, status := "failed", lastError := some (errf a) })) ++
            [{ attempt := k, status := "failed", lastError := some "Paused by control flag" }],
        backoffSleeps := (List.range' 1 (k - 1)).map (fun a => 2 ^ a),
        failureLogs := (List.range' 1 (k - 1)).map errf, annWrites := [] } ∧
    (processAssignmentItem ⟨fun i => .failure (errf i), fun i => decide (k ≤ i)⟩ attrs
        maxRetries ps0).runs.length = k ∧
    (processAssignmentItem ⟨fun i => .failure (errf i), fun i => decide (k ≤ i)⟩ attrs
        maxRetries ps0).runs.getLast? =
      some { attempt := k, status := "failed", lastError := some "Paused by control flag" } ∧
    (processAssignmentItem ⟨fun i => .failure (errf i), fun i => decide (k ≤ i)⟩ attrs
        maxRetries ps0).itemStatus ≠ "ai_failed" ∧
    (processAssignmentItem ⟨fun i => .failure (errf i), fun i => decide (k ≤ i)⟩ attrs
        maxRetries ps0).productStatus = ps0 := by
  have h := processFrom_pause errf hauth attrs k maxRetries
    ⟨"ai_in_progress", true, false, ps0, [], [], [], []⟩ 0 (by omega) (by omega)
  have hmain : processAssignmentItem
      ⟨fun i => .failure (errf i), fun i => decide (k ≤ i)⟩ attrs maxRetries ps0 =
      { itemStatus := "pending_ai", startedAtSet := true, completedAtSet := false,
        productStatus := ps0,
        runs := ((List.range' 1 (k - 1)).map
            (fun a => { attempt := a, status := "failed", lastError := some (errf a) })) ++
            [{ attempt := k, status := "failed", lastError := some "Paused by control flag" }],
        backoffSleeps := (List.range' 1 (k - 1)).map (fun a => 2 ^ a),
        failureLogs := (List.range' 1 (k - 1)).map errf, annWrites := [] } := by
    unfold processAssignmentItem
    simpa using h
  refine ⟨hmain, ?_, ?_, ?_, ?_⟩
  · rw [hmain]
    simp
    omega
  · rw [hmain]
    simp [List.getLast?_concat]
  · rw [hmain]
    exact (by decide : ("pending_ai" : String) ≠ "ai_failed")
  · rw [hmain]

/-- Witness for C5: pause raised at attempt 2 of `max_retries = 3`. -/
theorem pause_interruption_witness :
    isAuthError "boom" = false ∧ 1 ≤ 2 ∧ 2 ≤ 3 ∧
    processAssignmentItem ⟨fun _ => .failure "boom", fun i => decide (2 ≤ i)⟩ [] 3
        "ai_in_progress" =
      { itemStatus := "pending_ai", startedAtSet := true, completedAtSet := false,
        productStatus := "ai_in_progress",
        runs := [{ attempt := 1, status := "failed", lastError := some "boom" },
                 { attempt := 2, status := "failed",
                   lastError := some "Paused by control flag" }],
        backoffSleeps := [2], failureLogs := ["boom"], annWrites := [] } :=
  ⟨by decide, by decide, by decide, by
    have h := (pause_interruption (fun _ => "boom")
      (fun i => (by decide : isAuthError "boom" = false)) [] 2 3 (by decide) (by decide)
      "ai_in_progress").1
    rw [h]
    decide⟩

/-! ## C9: selective retry -/

/-- When there is no unresolved failure log at all, no provider id is
collected. -/
theorem retry_noop_of_no_unresolved (s : RetryStore)
    (h1 : (s.flogs.filter fun log => !log.isResolved).isEmpty = true) :
    retryFailedProviderIds s = [] := by
  unfold retryFailedProviderIds
  rw [List.isEmpty_iff.mp h1]
  rfl

/-- With an empty `failed_provider_ids` list no item is in the reset
queryset. -/
theorem itemInRetry_nil (s : RetryStore) (i : RetryItem) :
    itemInRetry s [] i = false := by
  unfold itemInRetry assignmentInRetry
  cases hfind : s.assignments.find? (fun a => a.id == i.assignmentId) <;> simp [hfind]

/-- An assignment with no unresolved failure log attached to its items
never contributes its provider id (provider ids being unique per
assignment within the batch). -/
theorem not_mem_retryFailedProviderIds (s : RetryStore)
    (hprov : ∀ a1 ∈ s.assignments, ∀ a2 ∈ s.assignments,
      a1.providerId = a2.providerId → a1 = a2)
    (a : RetryAssignment) (ha : a ∈ s.assignments) (hclean : cleanAssignment s a) :
    a.providerId ∉ retryFailedProviderIds s := by
  intro hmem
  unfold retryFailedProviderIds at hmem
  rw [List.mem_filterMap] at hmem
  obtain ⟨log, hlog, hf⟩ := hmem
  rw [List.mem_filter] at hlog
  obtain ⟨hlogmem, hlogres⟩ := hlog
  unfold logProviderId at hf
  split at hf
  · exact Option.noConfusion hf
  · rename_i item hitem
    split at hf
    · exact Option.noConfusion hf
    · rename_i a2 hass
      have hpid : a2.providerId = a.providerId := by injection hf
      have ha2mem := List.mem_of_find?_eq_some hass
      have ha2id : a2.id = item.assignmentId := by
        have := List.find?_some hass
        simpa using this
      have hitemmem := List.mem_of_find?_eq_some hitem
      have hitemid : item.id = log.itemId := by
        have := List.find?_some hitem
        simpa using this
      have haa : a2 = a := hprov a2 ha2mem a ha hpid
      have hres : log.isResolved = false := by simpa using hlogres
      refine hclean log hlogmem hres item hitemmem hitemid ?_
      rw [← haa]
      exact ha2id.symm

/-- C9: `retry_failed_ai` resets only the failing AI assignments and
only their `ai_failed` items, marks the unresolved FailureLogs resolved,
and leaves every assignment with no recorded unresolved failure and
every `ai_done` item entirely unchanged (status, progress and timestamps
included). -/
theorem selective_retry (s : RetryStore) (now : Nat)
    (hprov : ∀ a1 ∈ s.assignments, ∀ a2 ∈ s.assignments,
      a1.providerId = a2.providerId → a1 = a2) :
    ((retryFailedAI s now).assignments.length = s.assignments.length ∧
     (retryFailedAI s now).items.length = s.items.length ∧
     (retryFailedAI s now).flogs.length = s.flogs.length) ∧
    (∀ (k : Nat) (a : RetryAssignment), s.assignments[k]? = some a → cleanAssignment s a →
        (retryFailedAI s now).assignments[k]? = some a) ∧
    (∀ (k : Nat) (i : RetryItem), s.items[k]? = some i → i.status = "ai_done" →
        (retryFailedAI s now).items[k]? = some i) ∧
    (∀ (k : Nat) (log : RetryFailureLog), s.flogs[k]? = some log → log.isResolved = false →
        retryFailedProviderIds s ≠ [] →
        (retryFailedAI s now).flogs[k]? =
          some { log with isResolved := true, resolvedAt := some now }) ∧
    (∀ (k : Nat) (i : RetryItem), s.items[k]? = some i →
        itemInRetry s (retryFailedProviderIds s) i = true →
        (retryFailedAI s now).items[k]? =
          some { i with status := "ai_in_progress", startedAt := none, completedAt := none,
                        updatedAt := now }) := by
  by_cases h1 : (s.flogs.filter fun log => !log.isResolved).isEmpty
  · have hfp0 : retryFailedProviderIds s = [] := retry_noop_of_no_unresolved s h1
    have hid : retryFailedAI s now = s := by
      unfold retryFailedAI
      rw [if_pos h1]
    rw [hid]
    refine ⟨⟨rfl, rfl, rfl⟩, fun k a hk _ => hk, fun k i hk _ => hk, ?_, ?_⟩
    · intro k log hk hres hne
      exact absurd hfp0 hne
    · intro k i hk hin
      rw [hfp0, itemInRetry_nil] at hin
      exact absurd hin (by simp)
  · by_cases h2 : (retryFailedProviderIds s).isEmpty
    · have hfp0 : retryFailedProviderIds s = [] := List.isEmpty_iff.mp h2
      have hid : retryFailedAI s now = s := by
        unfold retryFailedAI
        rw [if_neg h1]
        simp only [hfp0, List.isEmpty_nil, if_true]
      rw [hid]
      refine ⟨⟨rfl, rfl, rfl⟩, fun k a hk _ => hk, fun k i hk _ => hk, ?_, ?_⟩
      · intro k log hk hres hne
        exact absurd hfp0 hne
      · intro k i hk hin
        rw [hfp0, itemInRetry_nil] at hin
        exact absurd hin (by simp)
    · have hmap : retryFailedAI s now =
          { assignments := s.assignments.map (retryAssignmentUpd (retryFailedProviderIds s) now),
            items := s.items.map (retryItemUpd s (retryFailedProviderIds s) now),
            flogs := s.flogs.map (retryLogUpd now) } := by
        unfold retryFailedAI
        rw [if_neg h1]
        simp only [h2, Bool.false_eq_true, if_false]
      rw [hmap]
      refine ⟨⟨by simp, by simp, by simp⟩, ?_, ?_, ?_, ?_⟩
      · intro k a hk hclean
        have ha := List.getElem?_mem hk
        have hnot := not_mem_retryFailedProviderIds s hprov a ha hclean
        show (s.assignments.map (retryAssignmentUpd (retryFailedProviderIds s) now))[k]? = some a
        rw [List.getElem?_map, hk, Option.map_some']
        have hupd : retryAssignmentUpd (retryFailedProviderIds s) now a = a := by
          unfold retryAssignmentUpd assignmentInRetry
          have hc : (retryFailedProviderIds s).contains a.providerId = false := by
            simpa using hnot
          rw [hc]
          simp
        rw [hupd]
      · intro k i hk hs
        show (s.items.map (retryItemUpd s (retryFailedProviderIds s) now))[k]? = some i
        rw [List.getElem?_map, hk, Option.map_some']
        have hupd : retryItemUpd s (retryFailedProviderIds s) now i = i := by
          unfold retryItemUpd itemInRetry
          rw [hs]
          simp
        rw [hupd]
      · intro k log hk hres hne
        show (s.flogs.map (retryLogUpd now))[k]? = some _
        rw [List.getElem?_map, hk, Option.map_some']
        unfold retryLogUpd
        rw [hres]
        simp
      · intro k i hk hin
        show (s.items.map (retryItemUpd s (retryFailedProviderIds s) now))[k]? = some _
        rw [List.getElem?_map, hk, Option.map_some']
        unfold retryItemUpd
        rw [hin]
        simp

/-- Witness for C9 on `c9exStore`: provider 20's completed assignment
and its `ai_done` item are untouched, the unresolved log is resolved,
and provider 10's failed item is reset. -/
theorem selective_retry_witness :
    c9exStore.assignments[1]? = some ⟨2, 20, "ai", "completed", 100, 0⟩ ∧
    cleanAssignment c9exStore ⟨2, 20, "ai", "completed", 100, 0⟩ ∧
    (retryFailedAI c9exStore 7).assignments[1]? = some ⟨2, 20, "ai", "completed", 100, 0⟩ ∧
    c9exStore.items[1]? = some ⟨101, 2, "ai_done", some 1, some 2, 0⟩ ∧
    (retryFailedAI c9exStore 7).items[1]? = some ⟨101, 2, "ai_done", some 1, some 2, 0⟩ ∧
    (retryFailedAI c9exStore 7).flogs[0]? = some ⟨1000, 100, true, some 7⟩ ∧
    (retryFailedAI c9exStore 7).items[0]? = some ⟨100, 1, "ai_in_progress", none, none, 7⟩ := by
  have h := selective_retry c9exStore 7 (by decide)
  exact ⟨by decide, by decide,
    h.2.1 1 ⟨2, 20, "ai", "completed", 100, 0⟩ (by decide) (by decide),
    by decide,
    h.2.2.1 1 ⟨101, 2, "ai_done", some 1, some 2, 0⟩ (by decide) (by decide),
    h.2.2.2.1 0 ⟨1000, 100, false, none⟩ (by decide) (by decide) (by decide),
    h.2.2.2.2 0 ⟨100, 1, "ai_failed", some 1, none, 0⟩ (by decide) (by decide)⟩

/-! ## C1 and C2: the sequential batch queue -/


/-- The queue invariant is preserved by every step of the system. -/
theorem qinv_step {s : QueueState} {t : Nat} {s2 : QueueState}
    (hstep : QStep s t s2) (hinv : QInv s) : QInv s2 := by
  obtain ⟨h1, h2, h3, h4, h5⟩ := hinv
  cases hstep with
  | submitDup hpc hmem =>
      refine ⟨?_, ?_, ?_, ?_, h5⟩ <;> dsimp only
      · intro u hu
        by_cases hut : u = t
        · rw [hut, Function.update_same] at hu
          exact absurd hu (by simp)
        · rw [Function.update_noteq hut] at hu
          exact h1 u hu
      · intro u hu
        by_cases hut : u = t
        · rw [hut, Function.update_same] at hu
          simp [activePC] at hu
        · rw [Function.update_noteq hut] at hu ⊢
          exact h2 u hu
      · intro u v hu hv hb
        by_cases hut : u = t
        · rw [hut, Function.update_same] at hu
          simp [activePC] at hu
        · by_cases hvt : v = t
          · rw [hvt, Function.update_same] at hv
            simp [activePC] at hv
          · rw [Function.update_noteq hut] at hu hb
            rw [Function.update_noteq hvt] at hv hb
            exact h3 u v hu hv hb
      · intro b hb
        obtain ⟨u, hu, hub⟩ := h4 b hb
        have hut : u ≠ t := by
          intro he
          rw [he, hpc] at hu
          simp [activePC] at hu
        exact ⟨u, by rw [Function.update_noteq hut]; exact hu,
               by rw [Function.update_noteq hut]; exact hub⟩
  | submitAdd hpc hmem =>
      refine ⟨?_, ?_, ?_, ?_, ?_⟩ <;> dsimp only
      · intro u hu
        by_cases hut : u = t
        · rw [hut, Function.update_same] at hu
          exact absurd hu (by simp)
        · rw [Function.update_noteq hut] at hu
          exact h1 u hu
      · intro u hu
        by_cases hut : u = t
        · rw [hut, Function.update_same]
          exact List.mem_append_right _ (by simp)
        · rw [Function.update_noteq hut] at hu ⊢
          exact List.mem_append_left _ (h2 u hu)
      · intro u v hu hv hb
        by_cases hut : u = t
        · by_cases hvt : v = t
          · rw [hut, hvt]
          · rw [hut] at hb ⊢
            rw [Function.update_same] at hb
            rw [Function.update_noteq hvt] at hv hb
            exact absurd (hb ▸ h2 v hv) hmem
        · by_cases hvt : v = t
          · rw [hvt] at hb ⊢
            rw [Function.update_same] at hb
            rw [Function.update_noteq hut] at hu hb
            exact absurd (hb ▸ h2 u hu) hmem
          · rw [Function.update_noteq hut] at hu hb
            rw [Function.update_noteq hvt] at hv hb
            exact h3 u v hu hv hb
      · intro b hb
        rcases List.mem_append.mp hb with hbq | hbt
        · obtain ⟨u, hu, hub⟩ := h4 b hbq
          have hut : u ≠ t := by
            intro he
            rw [he, hpc] at hu
            simp [activePC] at hu
          exact ⟨u, by rw [Function.update_noteq hut]; exact hu,
                 by rw [Function.update_noteq hut]; exact hub⟩
        · refine ⟨t, ?_, ?_⟩
          · rw [Function.update_same]
            simp [activePC]
          · rw [Function.update_same]
            exact (List.mem_singleton.mp hbt).symm
      · rw [List.nodup_append]
        refine ⟨h5, List.nodup_singleton _, ?_⟩
        intro x hx hxb
        rw [List.mem_singleton] at hxb
        rw [hxb] at hx
        exact hmem hx
  | acquire hpc hlock =>
      refine ⟨?_, ?_, ?_, ?_, h5⟩ <;> dsimp only
      · intro u hu
        by_cases hut : u = t
        · rw [hut]
        · rw [Function.update_noteq hut] at hu
          have := h1 u hu
          rw [hlock] at this
          exact Option.noConfusion this
      · intro u hu
        by_cases hut : u = t
        · rw [hut, Function.update_same]
          exact h2 t (by rw [hpc]; simp [activePC])
        · rw [Function.update_noteq hut] at hu ⊢
          exact h2 u hu
      · intro u v hu hv hb
        by_cases hut : u = t
        · by_cases hvt : v = t
          · rw [hut, hvt]
          · rw [hut] at hb ⊢
            rw [Function.update_same] at hb
            rw [Function.update_noteq hvt] at hv hb
            exact h3 t v (by rw [hpc]; simp [activePC]) hv hb
        · by_cases hvt : v = t
          · rw [hvt] at hb ⊢
            rw [Function.update_same] at hb
            rw [Function.update_noteq hut] at hu hb
            exact h3 u t hu (by rw [hpc]; simp [activePC]) hb
          · rw [Function.update_noteq hut] at hu hb
            rw [Function.update_noteq hvt] at hv hb
            exact h3 u v hu hv hb
      · intro b hb
        obtain ⟨u, hu, hub⟩ := h4 b hb
        by_cases hut : u = t
        · rw [hut] at hu hub
          refine ⟨t, ?_, ?_⟩
          · rw [Function.update_same]
            simp [activePC]
          · rw [Function.update_same]
            exact hub
        · exact ⟨u, by rw [Function.update_noteq hut]; exact hu,
                 by rw [Function.update_noteq hut]; exact hub⟩
  | release exc hpc =>
      refine ⟨?_, ?_, ?_, ?_, h5⟩ <;> dsimp only
      · intro u hu
        by_cases hut : u = t
        · rw [hut, Function.update_same] at hu
          exact absurd hu (by simp)
        · rw [Function.update_noteq hut] at hu
          have hu2 := h1 u hu
          have ht2 := h1 t hpc
          rw [ht2] at hu2
          exact absurd (Option.some.inj hu2).symm hut
      · intro u hu
        by_cases hut : u = t
        · rw [hut, Function.update_same]
          exact h2 t (by rw [hpc]; simp [activePC])
        · rw [Function.update_noteq hut] at hu ⊢
          exact h2 u hu
      · intro u v hu hv hb
        by_cases hut : u = t
        · by_cases hvt : v = t
          · rw [hut, hvt]
          · rw [hut] at hb ⊢
            rw [Function.update_same] at hb
            rw [Function.update_noteq hvt] at hv hb
            exact h3 t v (by rw [hpc]; simp [activePC]) hv hb
        · by_cases hvt : v = t
          · rw [hvt] at hb ⊢
            rw [Function.update_same] at hb
            rw [Function.update_noteq hut] at hu hb
            exact h3 u t hu (by rw [hpc]; simp [activePC]) hb
          · rw [Function.update_noteq hut] at hu hb
            rw [Function.update_noteq hvt] at hv hb
            exact h3 u v hu hv hb
      · intro b hb
        obtain ⟨u, hu, hub⟩ := h4 b hb
        by_cases hut : u = t
        · rw [hut] at hu hub
          refine ⟨t, ?_, ?_⟩
          · rw [Function.update_same]
            simp [activePC]
          · rw [Function.update_same]
            exact hub
        · exact ⟨u, by rw [Function.update_noteq hut]; exact hu,
                 by rw [Function.update_noteq hut]; exact hub⟩
  | dequeue hpc =>
      refine ⟨?_, ?_, ?_, ?_, h5.erase _⟩ <;> dsimp only
      · intro u hu
        by_cases hut : u = t
        · rw [hut, Function.update_same] at hu
          exact absurd hu (by simp)
        · rw [Function.update_noteq hut] at hu
          exact h1 u hu
      · intro u hu
        by_cases hut : u = t
        · rw [hut, Function.update_same] at hu
          simp [activePC] at hu
        · rw [Function.update_noteq hut] at hu ⊢
          have hbq := h2 u hu
          have hne : (s.threads u).batch ≠ (s.threads t).batch := by
            intro he
            exact hut (h3 u t hu (by rw [hpc]; simp [activePC]) he)
          exact (List.mem_erase_of_ne hne).mpr hbq
      · intro u v hu hv hb
        by_cases hut : u = t
        · rw [hut, Function.update_same] at hu
          simp [activePC] at hu
        · by_cases hvt : v = t
          · rw [hvt, Function.update_same] at hv
            simp [activePC] at hv
          · rw [Function.update_noteq hut] at hu hb
            rw [Function.update_noteq hvt] at hv hb
            exact h3 u v hu hv hb
      · intro b hb
        have hbq : b ∈ s.queue := List.mem_of_mem_erase hb
        obtain ⟨u, hu, hub⟩ := h4 b hbq
        have hut : u ≠ t := by
          intro he
          rw [he] at hub
          rw [← hub] at hb
          exact h5.not_mem_erase hb
        exact ⟨u, by rw [Function.update_noteq hut]; exact hu,
               by rw [Function.update_noteq hut]; exact hub⟩

/-- The queue invariant holds initially. -/
theorem qinv_init (batches : Nat → Nat) : QInv (startState batches) := by
  refine ⟨?_, ?_, ?_, ?_, ?_⟩
  · intro u h
    simp [startState] at h
  · intro u h
    simp [startState, activePC] at h
  · intro u v hu _ _
    simp [startState, activePC] at hu
  · intro b hb
    simp [startState] at hb
  · simp [startState]

/-- The queue invariant holds in every reachable state. -/
theorem qinv_reachable {batches : Nat → Nat} {s : QueueState}
    (h : QReaches (startState batches) s) : QInv s := by
  induction h with
  | refl => exact qinv_init batches
  | tail hsteps hstep ih =>
      obtain ⟨t, hstep⟩ := hstep
      exact qinv_step hstep ih

/-- C1: in every reachable state under any interleaving, no two distinct
threads are simultaneously inside `_process_batch_internal` — the single
global `_BATCH_PROCESS_LOCK` serializes all batch bodies. -/
theorem batch_mutual_exclusion (batches : Nat → Nat) (s : QueueState)
    (hreach : QReaches (startState batches) s) (t1 t2 : Nat) (hne : t1 ≠ t2) :
    ¬((s.threads t1).pc = BatchPC.inBody ∧ (s.threads t2).pc = BatchPC.inBody) := by
  rintro ⟨hb1, hb2⟩
  have hinv := qinv_reachable hreach
  have e1 := hinv.1 t1 hb1
  have e2 := hinv.1 t2 hb2
  rw [e1] at e2
  exact hne (Option.some.inj e2)

/-- C2: a `process_batch` call for a batch id already in `_BATCH_QUEUE`
returns immediately (`doneSkipped`) leaving queue and lock untouched; a
thread past its body (at the `finally` removal) leaves the batch id out
of the queue by its next step; and at any time at most one thread is
between enqueue and removal for a given batch id — duplicate concurrent
submissions yield exactly one execution. -/
theorem idempotent_submission (batches : Nat → Nat) (s : QueueState)
    (hreach : QReaches (startState batches) s) (t : Nat) (s2 : QueueState)
    (hstep : QStep s t s2) :
    ((s.threads t).pc = BatchPC.start → (s.threads t).batch ∈ s.queue →
        (s2.threads t).pc = BatchPC.doneSkipped ∧ s2.queue = s.queue ∧
        s2.lockHolder = s.lockHolder) ∧
    ((s.threads t).pc = BatchPC.removing → (s.threads t).batch ∉ s2.queue) ∧
    (∀ u v : Nat, activePC ((s.threads u).pc) → activePC ((s.threads v).pc) →
        (s.threads u).batch = (s.threads v).batch → u = v) := by
  have hinv := qinv_reachable hreach
  refine ⟨?_, ?_, hinv.2.2.1⟩
  · intro hpc hmem
    cases hstep with
    | submitDup hpc2 hmem2 =>
        refine ⟨?_, rfl, rfl⟩
        dsimp only
        rw [Function.update_same]
    | submitAdd hpc2 hmem2 => exact absurd hmem hmem2
    | acquire hpc2 hlock => rw [hpc] at hpc2; exact BatchPC.noConfusion hpc2
    | release exc hpc2 => rw [hpc] at hpc2; exact BatchPC.noConfusion hpc2
    | dequeue hpc2 => rw [hpc] at hpc2; exact BatchPC.noConfusion hpc2
  · intro hpc
    cases hstep with
    | submitDup hpc2 hmem2 => rw [hpc] at hpc2; exact BatchPC.noConfusion hpc2
    | submitAdd hpc2 hmem2 => rw [hpc] at hpc2; exact BatchPC.noConfusion hpc2
    | acquire hpc2 hlock => rw [hpc] at hpc2; exact BatchPC.noConfusion hpc2
    | release exc hpc2 => rw [hpc] at hpc2; exact BatchPC.noConfusion hpc2
    | dequeue hpc2 =>
        dsimp only
        exact hinv.2.2.2.2.not_mem_erase

/-- Witness for C1: two distinct threads in the initial state. -/
theorem batch_mutual_exclusion_witness :
    (0 : Nat) ≠ 1 ∧
    ¬(((startState (fun _ => 0)).threads 0).pc = BatchPC.inBody ∧
      ((startState (fun _ => 0)).threads 1).pc = BatchPC.inBody) :=
  ⟨by decide, batch_mutual_exclusion (fun _ => 0) _
    (by unfold QReaches; exact Relation.ReflTransGen.refl) 0 1 (by decide)⟩

/-- Witness for C2: thread 1 has queued batch 5; thread 0 then submits
batch 5 and is skipped with queue and lock unchanged. -/
theorem idempotent_submission_witness :
    (dupSubmitS1.threads 0).pc = BatchPC.start ∧
    (dupSubmitS1.threads 0).batch ∈ dupSubmitS1.queue ∧
    (dupSubmitS2.threads 0).pc = BatchPC.doneSkipped ∧
    dupSubmitS2.queue = dupSubmitS1.queue ∧
    dupSubmitS2.lockHolder = dupSubmitS1.lockHolder := by
  have hpc0 : (dupSubmitS1.threads 0).pc = BatchPC.start := rfl
  have hmem0 : (dupSubmitS1.threads 0).batch ∈ dupSubmitS1.queue := by decide
  have hreach : QReaches (startState (fun _ => 5)) dupSubmitS1 := by
    unfold QReaches
    exact Relation.ReflTransGen.single
      ⟨1, QStep.submitAdd (startState (fun _ => 5)) 1 rfl (by decide)⟩
  have hstep : QStep dupSubmitS1 0 dupSubmitS2 :=
    QStep.submitDup dupSubmitS1 0 hpc0 hmem0
  have h := (idempotent_submission (fun _ => 5) dupSubmitS1 hreach 0 dupSubmitS2 hstep).1
    hpc0 hmem0
  exact ⟨hpc0, hmem0, h.1, h.2.1, h.2.2⟩

end DeployBackend
